import Mathlib

/-!
Shallow embedding of the `fictive` library (src/index.js): the `FakeDB`
tabular store and the `delayedPromise` deferred-settlement primitive,
together with theorems checking the specification's claims against it.

JavaScript machine values are modelled by `Prim` (primitives, including
`NaN` as a distinguished number) and records (plain objects) by ordered
association lists with unique keys, as produced by JS object literals.
-/

namespace Fictive

/-- JS numbers, restricted to integers and NaN (sufficient for the
auto-increment key arithmetic, which only ever adds and maxes). -/
inductive JSNum where
  | int (n : Int)
  | nan
deriving DecidableEq

/-- Primitive JS values that can appear as record field values or as the
`success` / `primaryKey` arguments. -/
inductive Prim where
  | undefined
  | null
  | boolean (b : Bool)
  | number (n : JSNum)
  | str (s : String)
deriving DecidableEq

/-- JS truthiness of a primitive value: `undefined`, `null`, `false`, `0`,
`NaN` and the empty string are falsy. -/
def truthy : Prim → Bool
  | .undefined => false
  | .null => false
  | .boolean b => b
  | .number (.int n) => n != 0
  | .number .nan => false
  | .str s => s != ""

/-- JS ToNumber coercion of a primitive (as applied by `Math.max` to its
arguments): `undefined ↦ NaN`, `null ↦ 0`, booleans to 0/1, strings via
numeric parsing (blank ↦ 0, non-numeric ↦ NaN). -/
def toNumber : Prim → JSNum
  | .undefined => .nan
  | .null => .int 0
  | .boolean b => .int (if b then 1 else 0)
  | .number n => n
  | .str s => if s.trim = "" then .int 0 else
      match s.trim.toInt? with
      | some n => .int n
      | none => .nan

/-- JS ToString coercion of a primitive used as a property key, as in
`data[primaryKey]`. -/
def toKeyString : Prim → String
  | .undefined => "undefined"
  | .null => "null"
  | .boolean b => if b then "true" else "false"
  | .number (.int n) => toString n
  | .number .nan => "NaN"
  | .str s => s

/-- `Math.max` on two numbers: NaN is absorbing. -/
def jsMax : JSNum → JSNum → JSNum
  | .int x, .int y => .int (max x y)
  | _, _ => .nan

/-- JS numeric addition: NaN is absorbing. -/
def jsAdd : JSNum → JSNum → JSNum
  | .int x, .int y => .int (x + y)
  | _, _ => .nan

/-- Association lists keyed by strings model both JS objects (records) and
the `FakeDB` storage mapping. Keys are unique in every list built by the
operations, mirroring JS object key uniqueness. -/
def lookupA {α : Type} : List (String × α) → String → Option α
  | [], _ => none
  | p :: rest, k => if p.1 = k then some p.2 else lookupA rest k

/-- JS property assignment `obj[k] = v`: overwrite the existing occurrence
of `k` in place, or append `(k, v)` when absent. -/
def setA {α : Type} : List (String × α) → String → α → List (String × α)
  | [], k, v => [(k, v)]
  | p :: rest, k, v => if p.1 = k then (k, v) :: rest else p :: setA rest k v

/-- Records: plain JS data objects, as ordered field lists. -/
abbrev Record : Type := List (String × Prim)

/-- Field read returning `none` when the field is absent. -/
def recGet (r : Record) (k : String) : Option Prim := lookupA r k

/-- JS property read `r[k]`: an absent field reads as `undefined`. -/
def jsGet (r : Record) (k : String) : Prim := (recGet r k).getD .undefined

/-- Spread of a record into a fresh object literal, `{ ...r }`: fields are
assigned one by one in order. -/
def objClone (r : Record) : Record :=
  r.foldl (fun acc p => setA acc p.1 p.2) []

/-- Spread merge `{ ...base, ...patch }`: clone `base`, then assign every
field of `patch` over it (patch wins on overlapping field names). -/
def mergeSpread (base patch : Record) : Record :=
  patch.foldl (fun acc p => setA acc p.1 p.2) (objClone base)

/-- A stored collection value: either an array of records or any other
(primitive) value placed there by `create`. -/
inductive Entity where
  | arr (rows : List Record)
  | prim (v : Prim)
deriving DecidableEq

/-- JS truthiness of a stored collection value: arrays are always truthy
(even when empty); primitives by `truthy`. -/
def entityTruthy : Entity → Bool
  | .arr _ => true
  | .prim v => truthy v

/-- The `FakeDB` instance state: `this.storage`, a plain object mapping
entity names to their values. -/
abbrev Storage : Type := List (String × Entity)

/-- The error taxonomy of the store. The two `arrayEntity` errors carry
distinct messages in the source (`does not exist` vs `is not an array`);
`typeError` models the TypeError raised by `entry.constructor` when
`entry` is `null` or `undefined`. -/
inductive DBError where
  | invalidEntry
  | typeError
  | entityNotFound
  | entityNotArray
deriving DecidableEq

/-- The `arrayEntity` helper: `if (!storage[entityName]) throw "does not
exist"` — an absent name reads as `undefined` (falsy), and a present but
falsy value also fails this first check — then `if
(!Array.isArray(storage[entityName])) throw "is not an array"`. -/
def arrayEntity (storage : Storage) (entityName : String) :
    Except DBError (List Record) :=
  match lookupA storage entityName with
  | none => .error .entityNotFound
  | some e =>
    if entityTruthy e then
      match e with
      | .arr rows => .ok rows
      | .prim _ => .error .entityNotArray
    else .error .entityNotFound

/-- `create(entityName, initialState)`: an array argument is copied
(`[...initialState]`), an omitted/`undefined` argument defaults to `[]`,
and any other value is stored verbatim. Always succeeds, overwriting any
existing collection of the same name. -/
def create (storage : Storage) (entityName : String) (initialState : Entity) :
    Storage :=
  let data : Entity :=
    match initialState with
    | .arr rows => .arr rows
    | .prim .undefined => .arr []
    | .prim v => .prim v
  setA storage entityName data

/-- Possible values of `insert`'s `entry` argument: a plain object, an
array, or a primitive. Only a plain object has `constructor === Object`. -/
inductive JSArg where
  | obj (r : Record)
  | arrv (rows : List Record)
  | prim (v : Prim)

/-- The auto-increment computation of `insert`:
`1 + entity.map(row => row[primaryKey]).reduce((max, cur) => Math.max(max, cur), 0)`.
An absent field reads as `undefined`, which `Math.max` coerces to NaN. -/
def autoKey (rows : List Record) (pk : String) : JSNum :=
  jsAdd (.int 1)
    ((rows.map (fun row => toNumber (jsGet row pk))).foldl jsMax (.int 0))

/-- `insert(entityName, entry, primaryKey)`. Checks `entry.constructor ===
Object` first (a `null`/`undefined` entry raises a TypeError instead),
then resolves the collection via `arrayEntity`, clones the entry, sets the
auto-increment key when `primaryKey` is truthy, appends, and returns
`data[primaryKey] || undefined`. Returns the post-state and the result. -/
def insert (storage : Storage) (entityName : String) (entry : JSArg)
    (primaryKey : Prim) : Storage × Except DBError Prim :=
  match entry with
  | .prim .undefined => (storage, .error .typeError)
  | .prim .null => (storage, .error .typeError)
  | .prim _ => (storage, .error .invalidEntry)
  | .arrv _ => (storage, .error .invalidEntry)
  | .obj r =>
    match arrayEntity storage entityName with
    | .error e => (storage, .error e)
    | .ok rows =>
      let pkStr := toKeyString primaryKey
      let data0 := objClone r
      let data :=
        if truthy primaryKey then
          setA data0 pkStr (.number (autoKey rows pkStr))
        else data0
      let ret := jsGet data pkStr
      (setA storage entityName (.arr (rows ++ [data])),
       .ok (if truthy ret then ret else .undefined))

/-- One pass over the rows as in `update`'s `entity.map` with its `matched`
counter: matched rows become `{ ...entry, ...data }`, others `{ ...entry }`. -/
def updateRows (data : Record) (matchFunc : Record → Bool) :
    List Record → List Record × Nat
  | [] => ([], 0)
  | e :: rest =>
    let (tl, m) := updateRows data matchFunc rest
    if matchFunc e then (mergeSpread e data :: tl, m + 1)
    else (objClone e :: tl, m)

/-- `update(entityName, data, matchFunc)`: resolves the collection, maps it
to a new sequence (merging `data` over matched rows), stores the new
sequence wholesale, and returns the match count. -/
def update (storage : Storage) (entityName : String) (data : Record)
    (matchFunc : Record → Bool) : Storage × Except DBError Nat :=
  match arrayEntity storage entityName with
  | .error e => (storage, .error e)
  | .ok rows =>
    (setA storage entityName (.arr (updateRows data matchFunc rows).1),
     .ok (updateRows data matchFunc rows).2)

/-- `delete(entityName, matchFunc)`: resolves the collection, keeps only
rows failing `matchFunc`, stores the filtered sequence, and returns the
original length minus the new length. -/
def delete (storage : Storage) (entityName : String)
    (matchFunc : Record → Bool) : Storage × Except DBError Nat :=
  match arrayEntity storage entityName with
  | .error e => (storage, .error e)
  | .ok rows =>
    let newRows := rows.filter (fun e => !matchFunc e)
    (setA storage entityName (.arr newRows), .ok (rows.length - newRows.length))

/-- `search(entityName, filterFunc)`: with no filter, `slice()` (a copy of
the whole sequence, value-equal to it); with a filter, `filter`. The
storage is never modified. -/
def search (storage : Storage) (entityName : String)
    (filterFunc : Option (Record → Bool)) :
    Storage × Except DBError (List Record) :=
  match arrayEntity storage entityName with
  | .error e => (storage, .error e)
  | .ok rows =>
    match filterFunc with
    | none => (storage, .ok rows)
    | some f => (storage, .ok (rows.filter f))

/-- `testSome(entityName, filterFunc)`: `some` over the resolved rows. -/
def testSome (storage : Storage) (entityName : String)
    (filterFunc : Record → Bool) : Storage × Except DBError Bool :=
  match arrayEntity storage entityName with
  | .error e => (storage, .error e)
  | .ok rows => (storage, .ok (rows.any filterFunc))

/-! ### The deferred-settlement primitive `delayedPromise` -/

/-- The effective timer delay chosen by `delayedPromise`: `if
(process.env.NODE_ENV === 'test') delay = 0; else if (delay === undefined)
delay = 200`. `nodeEnvIsTest` models the environment flag, `none` models
an omitted/`undefined` delay argument. -/
def effectiveDelay (nodeEnvIsTest : Bool) (delay : Option Int) : Int :=
  if nodeEnvIsTest then 0
  else
    match delay with
    | none => 200
    | some d => d

/-- A call made by the promise executor to one of its two settlement
continuations. -/
inductive SettleCall (α : Type) where
  | resolveCall (v : α)
  | rejectCall (v : α)

/-- The sequence of settlement calls the timer callback performs:
`if (success || success === undefined) { resolve(value) } reject(value)` —
note the missing `else`: `reject` is always called, but only the first
settlement of a promise takes effect. -/
def settleCalls {α : Type} (value : α) (success : Prim) :
    List (SettleCall α) :=
  if truthy success ∨ success = Prim.undefined then
    [.resolveCall value, .rejectCall value]
  else
    [.rejectCall value]

/-- The settled state of a promise. -/
inductive Outcome (α : Type) where
  | resolved (v : α)
  | rejected (v : α)
deriving DecidableEq

/-- The payload a settled promise carries. -/
def Outcome.payload {α : Type} : Outcome α → α
  | .resolved v => v
  | .rejected v => v

/-- Promise settlement semantics: the first `resolve`/`reject` call wins
and every later one is ignored; `none` means the promise never settles. -/
def firstSettlement {α : Type} : List (SettleCall α) → Option (Outcome α)
  | [] => none
  | .resolveCall v :: _ => some (.resolved v)
  | .rejectCall v :: _ => some (.rejected v)

/-- The settled state of `delayedPromise(value, delay, success)`. -/
def delayedPromiseOutcome {α : Type} (value : α) (success : Prim) :
    Option (Outcome α) :=
  firstSettlement (settleCalls value success)

/-- `fakeReply(value, delay)` calls `delayedPromise(value, delay)` with the
`success` parameter omitted (so `undefined`). -/
def fakeReplyOutcome {α : Type} (value : α) : Option (Outcome α) :=
  delayedPromiseOutcome value .undefined

/-- `fakeError(value, delay)` calls `delayedPromise(value, delay, false)`. -/
def fakeErrorOutcome {α : Type} (value : α) : Option (Outcome α) :=
  delayedPromiseOutcome value (.boolean false)

/-! ### A reference-level (heap) model for the copying behavior of
`create` and `search` -/

/-- A heap of JS arrays-of-records; an address is an index. -/
abbrev Heap : Type := List (List Record)

/-- Read the array stored at an address. -/
def readH (h : Heap) (a : Nat) : List Record := h.getD a []

/-- In-place mutation of the array at an address (what caller code can do
to an array it holds a reference to). -/
def writeH (h : Heap) (a : Nat) (rows : List Record) : Heap := h.set a rows

/-- Allocate a fresh array with the given contents. -/
def allocH (h : Heap) (rows : List Record) : Heap × Nat :=
  (h ++ [rows], h.length)

/-- `create` with an array argument, at the reference level: `data =
[...initialState]` allocates a fresh array holding a copy of the caller's
contents, and that fresh reference is what the store keeps. -/
def createRefModel (h : Heap) (callerAddr : Nat) : Heap × Nat :=
  allocH h (readH h callerAddr)

/-- `search` without a predicate, at the reference level: `slice()`
allocates a fresh array with the same contents as the stored one. -/
def searchRefModel (h : Heap) (storedAddr : Nat) : Heap × Nat :=
  allocH h (readH h storedAddr)

/-! ### Derived notions used to state the claims -/

/-- First-defined option, `a` winning over `b` (how a spread merge resolves
an overlapping field name, seen from the lookup side). -/
def orO {α : Type} : Option α → Option α → Option α
  | some v, _ => some v
  | none, b => b

/-- The integer value a record holds at field `k`, when it holds one. -/
def intKey? (r : Record) (k : String) : Option Int :=
  match jsGet r k with
  | .number (.int n) => some n
  | _ => none

/-- Whether `storage[entityName]` is absent or a falsy value: exactly the
condition of `arrayEntity`'s first check. -/
def absentOrFalsy (storage : Storage) (entityName : String) : Bool :=
  match lookupA storage entityName with
  | none => true
  | some e => !entityTruthy e

/-- Whether a looked-up collection value is an array (`Array.isArray`). -/
def isArrayValue : Option Entity → Bool
  | some (.arr _) => true
  | _ => false

/-! ### Association-list lemmas -/

theorem lookupA_setA {α : Type} (l : List (String × α)) (k key : String)
    (v : α) :
    lookupA (setA l k v) key = if k = key then some v else lookupA l key := by
  induction l with
  | nil => simp [setA, lookupA]
  | cons p rest ih =>
    simp only [setA]
    by_cases hp : p.1 = k
    · simp only [if_pos hp, lookupA]
      by_cases h : k = key
      · simp [h]
      · have hpkey : ¬p.1 = key := fun hc => h (hp.symm.trans hc)
        simp [h, hpkey]
    · simp only [if_neg hp, lookupA]
      by_cases hpk : p.1 = key
      · have hne : ¬k = key := fun hc => hp (hpk.trans hc.symm)
        simp [hpk, hne]
      · simp [hpk, ih]

theorem lookupA_not_mem {α : Type} (l : List (String × α)) (k : String)
    (h : k ∉ l.map Prod.fst) : lookupA l k = none := by
  induction l with
  | nil => rfl
  | cons p rest ih =>
    simp only [List.map_cons, List.mem_cons] at h
    push_neg at h
    have hp : ¬p.1 = k := fun hc => h.1 hc.symm
    simp [lookupA, hp, ih h.2]

theorem setA_not_mem {α : Type} (l : List (String × α)) (k : String) (v : α)
    (h : k ∉ l.map Prod.fst) : setA l k v = l ++ [(k, v)] := by
  induction l with
  | nil => rfl
  | cons p rest ih =>
    simp only [List.map_cons, List.mem_cons] at h
    push_neg at h
    have hp : ¬p.1 = k := fun hc => h.1 hc.symm
    simp [setA, hp, ih h.2]

theorem foldl_setA_append (l acc : List (String × Prim))
    (h : (acc.map Prod.fst ++ l.map Prod.fst).Nodup) :
    l.foldl (fun a p => setA a p.1 p.2) acc = acc ++ l := by
  induction l generalizing acc with
  | nil => simp
  | cons p rest ih =>
    rw [List.map_cons] at h
    have hnot : p.1 ∉ acc.map Prod.fst := by
      rcases List.nodup_append.mp h with ⟨-, -, hdisj⟩
      intro hmem
      exact hdisj hmem (List.mem_cons_self p.1 _)
    have hset : setA acc p.1 p.2 = acc ++ [p] :=
      setA_not_mem acc p.1 p.2 hnot
    rw [List.append_cons] at h
    have hrec := ih (acc ++ [p]) (by simpa using h)
    simp only [List.foldl_cons, hset, hrec]
    simp

/-- Cloning a record with unique field names gives back the same record. -/
theorem objClone_eq_self (r : Record) (h : (r.map Prod.fst).Nodup) :
    objClone r = r := by
  simpa using foldl_setA_append r [] (by simpa using h)

/-- Looking up a field after spreading `patch` over an accumulator: the
patch wins when it has the field, otherwise the accumulator's value
remains. -/
theorem lookupA_foldl_setA (patch : List (String × Prim)) (key : String)
    (h : (patch.map Prod.fst).Nodup) (acc : List (String × Prim)) :
    lookupA (patch.foldl (fun a p => setA a p.1 p.2) acc) key
      = orO (lookupA patch key) (lookupA acc key) := by
  induction patch generalizing acc with
  | nil => simp [lookupA, orO]
  | cons p rest ih =>
    rw [List.map_cons, List.nodup_cons] at h
    simp only [List.foldl_cons, lookupA]
    rw [ih h.2]
    by_cases hk : p.1 = key
    · have hrest : lookupA rest key = none := by
        apply lookupA_not_mem
        rw [← hk]
        exact h.1
      simp [hrest, lookupA_setA, hk, orO]
    · simp [hk, lookupA_setA]

/-- Field lookup through a spread merge `{ ...base, ...patch }`, for
records with unique field names: the patch's value when present, else the
base's. -/
theorem recGet_mergeSpread (base patch : Record) (key : String)
    (hbase : (base.map Prod.fst).Nodup) (hpatch : (patch.map Prod.fst).Nodup) :
    recGet (mergeSpread base patch) key
      = orO (recGet patch key) (recGet base key) := by
  unfold mergeSpread recGet
  rw [lookupA_foldl_setA patch key hpatch, objClone_eq_self base hbase]

/-! ### Fold lemmas for the auto-increment computation -/

theorem le_foldl_max (l : List Int) (a : Int) : a ≤ l.foldl max a := by
  induction l generalizing a with
  | nil => simp
  | cons x t ih =>
    exact le_trans (le_max_left a x) (ih (max a x))

theorem foldl_max_of_mem (l : List Int) : ∀ (a x : Int), x ∈ l →
    x ≤ l.foldl max a := by
  induction l with
  | nil => intro a x hx; cases hx
  | cons y t ih =>
    intro a x hx
    rcases List.mem_cons.mp hx with h | h
    · subst h
      exact le_trans (le_max_right a x) (le_foldl_max t (max a x))
    · exact ih (max a y) x h

theorem autoKey_rows_int (k : String) : ∀ (rows : List Record),
    (∀ r ∈ rows, (intKey? r k).isSome) → ∀ a : Int,
    (rows.map (fun row => toNumber (jsGet row k))).foldl jsMax (.int a)
      = .int ((rows.map (fun r => (intKey? r k).getD 0)).foldl max a) := by
  intro rows
  induction rows with
  | nil => intro _ a; simp
  | cons r t ih =>
    intro hnum a
    have hs := hnum r (List.mem_cons_self r t)
    have hr : toNumber (jsGet r k) = .int ((intKey? r k).getD 0) := by
      unfold intKey? at hs ⊢
      cases hjs : jsGet r k with
      | number n =>
        cases n with
        | int m => simp [toNumber]
        | nan => rw [hjs] at hs; simp at hs
      | undefined => rw [hjs] at hs; simp at hs
      | null => rw [hjs] at hs; simp at hs
      | boolean b => rw [hjs] at hs; simp at hs
      | str s => rw [hjs] at hs; simp at hs
    simp only [List.map_cons, List.foldl_cons, hr, jsMax]
    exact ih (fun x hx => hnum x (List.mem_cons_of_mem r hx)) (max a _)

/-- When every existing record holds an integer at the key field, the
auto-increment computation is one plus the maximum of 0 and those
integers. -/
theorem autoKey_int (rows : List Record) (k : String)
    (hnum : ∀ r ∈ rows, (intKey? r k).isSome) :
    autoKey rows k
      = .int (1 + (rows.map (fun r => (intKey? r k).getD 0)).foldl max 0) := by
  unfold autoKey
  rw [autoKey_rows_int k rows hnum 0]
  rfl

theorem arrayEntity_arr (storage : Storage) (entityName : String)
    (rows : List Record) (h : lookupA storage entityName = some (.arr rows)) :
    arrayEntity storage entityName = .ok rows := by
  simp [arrayEntity, h, entityTruthy]

/-- The full behavior of `insert` with a non-empty string key on a
collection whose records all hold integers at that key. -/
theorem insert_autokey_core (storage : Storage) (entityName k : String)
    (rows : List Record) (entry : Record)
    (harr : lookupA storage entityName = some (.arr rows))
    (hk : k ≠ "")
    (hnum : ∀ r ∈ rows, (intKey? r k).isSome)
    (hentry : (entry.map Prod.fst).Nodup) :
    insert storage entityName (.obj entry) (.str k)
      = (setA storage entityName (.arr (rows ++
          [setA entry k (.number (.int
            (1 + (rows.map (fun r => (intKey? r k).getD 0)).foldl max 0)))])),
         .ok (.number (.int
            (1 + (rows.map (fun r => (intKey? r k).getD 0)).foldl max 0)))) := by
  have hm0 : (0:Int) ≤ (rows.map (fun r => (intKey? r k).getD 0)).foldl max 0 :=
    le_foldl_max _ 0
  set m := (rows.map (fun r => (intKey? r k).getD 0)).foldl max 0 with hm
  have hkey := autoKey_int rows k hnum
  rw [← hm] at hkey
  have hae := arrayEntity_arr storage entityName rows harr
  have htr : truthy (.str k) = true := by simp [truthy, hk]
  have hne : (1 + m) ≠ 0 := by omega
  have hget : jsGet (setA entry k (.number (.int (1 + m)))) k
      = .number (.int (1 + m)) := by
    simp [jsGet, recGet, lookupA_setA]
  unfold insert
  rw [hae]
  simp only [toKeyString, objClone_eq_self entry hentry, hkey]
  have htr2 : truthy (Prim.number (JSNum.int (1 + m))) = true := by
    simp [truthy, hne]
  simp [htr, hget, htr2]

/-! ### Behavior of `update`'s single pass -/

theorem updateRows_eq (data : Record) (f : Record → Bool) :
    ∀ rows : List Record,
    updateRows data f rows =
      (rows.map (fun e => if f e then mergeSpread e data else objClone e),
       rows.countP f) := by
  intro rows
  induction rows with
  | nil => rfl
  | cons e t ih =>
    simp only [updateRows, ih, List.map_cons]
    by_cases h : f e <;> simp [h, List.countP_cons]

/-! ### Heap lemmas for the reference-level model -/

theorem readH_alloc (h : Heap) (rows : List Record) :
    readH (h ++ [rows]) h.length = rows := by
  induction h with
  | nil => rfl
  | cons x t ih =>
    simp only [readH, List.cons_append, List.length_cons,
      List.getD_cons_succ] at ih ⊢
    exact ih

theorem getD_set_ne {α : Type} : ∀ (l : List α) (a b : Nat) (x d : α),
    a ≠ b → (l.set a x).getD b d = l.getD b d := by
  intro l
  induction l with
  | nil => intro a b x d _; rfl
  | cons y t ih =>
    intro a b x d hab
    cases a with
    | zero =>
      cases b with
      | zero => exact absurd rfl hab
      | succ b' => simp
    | succ a' =>
      cases b with
      | zero => simp
      | succ b' =>
        simp only [List.set_cons_succ, List.getD_cons_succ]
        exact ih a' b' x d (fun hc => hab (by rw [hc]))

theorem readH_set_ne (h : Heap) (a b : Nat) (rows : List Record)
    (hne : a ≠ b) : readH (h.set a rows) b = readH h b :=
  getD_set_ne h a b rows [] hne

/-! ### `arrayEntity` case analysis and error propagation -/

theorem arrayEntity_nonarray (storage : Storage) (entityName : String)
    (hnot : isArrayValue (lookupA storage entityName) = false) :
    arrayEntity storage entityName
      = .error (if absentOrFalsy storage entityName then .entityNotFound
                else .entityNotArray) := by
  unfold arrayEntity absentOrFalsy isArrayValue at *
  cases hl : lookupA storage entityName with
  | none => simp
  | some e =>
    rw [hl] at hnot
    cases e with
    | arr rows => simp at hnot
    | prim v =>
      by_cases ht : entityTruthy (.prim v) = true <;> simp [ht]

theorem insert_obj_error (storage : Storage) (entityName : String)
    (r : Record) (pk : Prim) (e : DBError)
    (h : arrayEntity storage entityName = .error e) :
    insert storage entityName (.obj r) pk = (storage, .error e) := by
  unfold insert
  rw [h]

theorem update_error (storage : Storage) (entityName : String)
    (data : Record) (f : Record → Bool) (e : DBError)
    (h : arrayEntity storage entityName = .error e) :
    update storage entityName data f = (storage, .error e) := by
  unfold update
  rw [h]

theorem delete_error (storage : Storage) (entityName : String)
    (f : Record → Bool) (e : DBError)
    (h : arrayEntity storage entityName = .error e) :
    delete storage entityName f = (storage, .error e) := by
  unfold delete
  rw [h]

theorem search_error (storage : Storage) (entityName : String)
    (filt : Option (Record → Bool)) (e : DBError)
    (h : arrayEntity storage entityName = .error e) :
    search storage entityName filt = (storage, .error e) := by
  unfold search
  rw [h]

theorem testSome_error (storage : Storage) (entityName : String)
    (f : Record → Bool) (e : DBError)
    (h : arrayEntity storage entityName = .error e) :
    testSome storage entityName f = (storage, .error e) := by
  unfold testSome
  rw [h]

/-! ### Claim theorems -/

/-- Claim C1, counterexample: with `succeed = null` (which is not the value
`false`), `delayedPromise` settles as a failure, contradicting the claim
that only an explicit `false` triggers failure. -/
theorem C1_counterexample :
    delayedPromiseOutcome (Prim.number (.int 7)) Prim.null
      = some (.rejected (Prim.number (.int 7)))
    ∧ Prim.null ≠ Prim.boolean false :=
  ⟨rfl, by decide⟩

/-- Claim C1, amended: `delayedPromise(v, d, succeed)` settles as a failure
exactly when `succeed` is falsy and not `undefined` (so `false`, `null`,
`0`, `NaN` and the empty string all fail), and settles successfully with
`v` exactly when `succeed` is truthy or `undefined`/omitted. -/
theorem C1_failure_iff_falsy_defined {α : Type} (value : α) (success : Prim) :
    (delayedPromiseOutcome value success = some (.rejected value)
       ↔ (truthy success = false ∧ success ≠ .undefined))
    ∧ (delayedPromiseOutcome value success = some (.resolved value)
       ↔ (truthy success = true ∨ success = .undefined)) := by
  unfold delayedPromiseOutcome settleCalls
  by_cases h : truthy success = true ∨ success = Prim.undefined
  · rw [if_pos h]
    constructor
    · constructor
      · intro hc
        simp [firstSettlement] at hc
      · rintro ⟨hf, hu⟩
        rcases h with h1 | h1
        · rw [hf] at h1
          exact absurd h1 (by simp)
        · exact absurd h1 hu
    · exact ⟨fun _ => h, fun _ => rfl⟩
  · rw [if_neg h]
    push_neg at h
    constructor
    · constructor
      · intro _
        exact ⟨Bool.eq_false_iff.mpr h.1, h.2⟩
      · intro _
        rfl
    · constructor
      · intro hc
        simp [firstSettlement] at hc
      · intro hor
        rcases hor with h1 | h1
        · exact absurd h1 h.1
        · exact absurd h1 h.2

/-- Claim C8: every deferred settlement settles exactly once — the executor
always makes at least one settlement call, the first one wins, its payload
is exactly the given value — and `fakeReply`/`fakeError` settle
successfully/as failure with that value. -/
theorem C8_settles_exactly_once {α : Type} (value : α) (success : Prim) :
    (∃ o : Outcome α, delayedPromiseOutcome value success = some o
        ∧ o.payload = value)
    ∧ (∀ o : Outcome α, delayedPromiseOutcome value success = some o →
        o = .resolved value ∨ o = .rejected value)
    ∧ fakeReplyOutcome value = some (.resolved value)
    ∧ fakeErrorOutcome value = some (.rejected value) := by
  unfold fakeReplyOutcome fakeErrorOutcome delayedPromiseOutcome settleCalls
  by_cases h : truthy success = true ∨ success = Prim.undefined
  · rw [if_pos h]
    exact ⟨⟨.resolved value, rfl, rfl⟩,
           fun o ho => .inl (Option.some.inj ho).symm, rfl, rfl⟩
  · rw [if_neg h]
    exact ⟨⟨.rejected value, rfl, rfl⟩,
           fun o ho => .inr (Option.some.inj ho).symm, rfl, rfl⟩

/-- Claim C8, witness at `value = 3`, `success = null`. -/
theorem C8_settles_exactly_once_witness :
    (∃ o : Outcome Nat, delayedPromiseOutcome 3 Prim.null = some o
        ∧ o.payload = 3)
    ∧ ((Outcome.rejected 3 : Outcome Nat) = .resolved 3
        ∨ (Outcome.rejected 3 : Outcome Nat) = .rejected 3)
    ∧ fakeReplyOutcome (3 : Nat) = some (.resolved 3)
    ∧ fakeErrorOutcome (3 : Nat) = some (.rejected 3) := by
  have h := C8_settles_exactly_once (3 : Nat) Prim.null
  exact ⟨h.1, h.2.1 (.rejected 3) rfl, h.2.2.1, h.2.2.2⟩

/-- Claim C9: under the automated-test flag the effective delay is 0
whatever was requested; otherwise an omitted delay defaults to 200 and a
given delay is used as is. -/
theorem C9_effective_delay (d : Int) (dOpt : Option Int) :
    effectiveDelay true dOpt = 0
    ∧ effectiveDelay false none = 200
    ∧ effectiveDelay false (some d) = d :=
  ⟨rfl, rfl, rfl⟩

/-- Claim C2, counterexample: on the collection `[{}]` (one record without
the key field), the claim predicts key `1 + max 0 = 1` stored and
returned; the code stores `NaN` (`Math.max(0, undefined)` is `NaN`) and
returns `undefined` (via `|| undefined`). -/
theorem C2_counterexample :
    (insert [("t", Entity.arr [[]])] "t" (.obj []) (.str "id")).2
        = .ok Prim.undefined
    ∧ (insert [("t", Entity.arr [[]])] "t" (.obj []) (.str "id")).1
        = [("t", .arr [[], [("id", .number .nan)]])]
    ∧ Prim.undefined ≠ Prim.number (.int 1)
    ∧ JSNum.nan ≠ JSNum.int 1 :=
  ⟨rfl, rfl, by decide, by decide⟩

/-- Claim C2, amended: when every existing record holds an integer at the
key field `k` (and `k` is a non-empty field name), `insert` computes the
new key as one plus the maximum of 0 and those integers, overwrites any
`k` already present in the entry, appends the record, and returns the
computed key. Records lacking the field make the computed key `NaN`
instead (see the counterexample), and the maximum is clamped below at 0
by the fold's initial value. -/
theorem C2_insert_autokey (storage : Storage) (entityName k : String)
    (rows : List Record) (entry : Record)
    (harr : lookupA storage entityName = some (.arr rows))
    (hk : k ≠ "")
    (hnum : ∀ r ∈ rows, (intKey? r k).isSome)
    (hentry : (entry.map Prod.fst).Nodup) :
    insert storage entityName (.obj entry) (.str k)
      = (setA storage entityName (.arr (rows ++
          [setA entry k (.number (.int
            (1 + (rows.map (fun r => (intKey? r k).getD 0)).foldl max 0)))])),
         .ok (.number (.int
            (1 + (rows.map (fun r => (intKey? r k).getD 0)).foldl max 0))))
    ∧ recGet (setA entry k (.number (.int
          (1 + (rows.map (fun r => (intKey? r k).getD 0)).foldl max 0)))) k
        = some (.number (.int
            (1 + (rows.map (fun r => (intKey? r k).getD 0)).foldl max 0))) := by
  refine ⟨insert_autokey_core storage entityName k rows entry harr hk hnum
    hentry, ?_⟩
  simp [recGet, lookupA_setA]

/-- Claim C2, witness: keys `{1,2,3}` yield 4. -/
theorem C2_insert_autokey_witness :
    (lookupA [("t", Entity.arr [[("id", Prim.number (.int 1))],
        [("id", Prim.number (.int 2))], [("id", Prim.number (.int 3))]])] "t"
      = some (.arr [[("id", Prim.number (.int 1))],
        [("id", Prim.number (.int 2))], [("id", Prim.number (.int 3))]]))
    ∧ ("id" : String) ≠ ""
    ∧ (∀ r ∈ [[("id", Prim.number (.int 1))], [("id", Prim.number (.int 2))],
        [("id", Prim.number (.int 3))]], (intKey? r "id").isSome)
    ∧ (insert [("t", Entity.arr [[("id", Prim.number (.int 1))],
        [("id", Prim.number (.int 2))], [("id", Prim.number (.int 3))]])] "t"
        (.obj [("content", Prim.str "new")]) (.str "id")).2
      = .ok (.number (.int 4)) := by
  have h := C2_insert_autokey
    [("t", Entity.arr [[("id", Prim.number (.int 1))],
      [("id", Prim.number (.int 2))], [("id", Prim.number (.int 3))]])]
    "t" "id"
    [[("id", Prim.number (.int 1))], [("id", Prim.number (.int 2))],
      [("id", Prim.number (.int 3))]]
    [("content", Prim.str "new")]
    (by decide) (by decide) (by decide) (by decide)
  refine ⟨by decide, by decide, by decide, ?_⟩
  rw [h.1]
  rfl

/-- Claim C3, counterexample: `create(name, 0)` registers the collection
with the non-sequence value `0`, yet every table operation then fails with
the "does not exist" condition (because `!storage[name]` sees the falsy
`0` first), not the claimed "not an array" condition. -/
theorem C3_counterexample :
    lookupA (create [] "c" (.prim (.number (.int 0)))) "c"
        = some (.prim (.number (.int 0)))
    ∧ (search (create [] "c" (.prim (.number (.int 0)))) "c" none).2
        = .error .entityNotFound
    ∧ DBError.entityNotFound ≠ DBError.entityNotArray :=
  ⟨rfl, rfl, by decide⟩

/-- Claim C3, amended: whenever the named collection does not hold a
sequence, every one of insert/update/delete/search/testSome fails, with
`EntityNotFound` when the name is unregistered or registered to a falsy
value, and with `EntityNotArray` when it is registered to a truthy
non-sequence value; the two conditions are distinct. -/
theorem C3_error_discrimination (storage : Storage) (entityName : String)
    (entry patch : Record) (f g fi : Record → Bool)
    (hnot : isArrayValue (lookupA storage entityName) = false) :
    arrayEntity storage entityName
        = .error (if absentOrFalsy storage entityName then .entityNotFound
                  else .entityNotArray)
    ∧ insert storage entityName (.obj entry) .undefined
        = (storage, .error (if absentOrFalsy storage entityName
            then .entityNotFound else .entityNotArray))
    ∧ update storage entityName patch f
        = (storage, .error (if absentOrFalsy storage entityName
            then .entityNotFound else .entityNotArray))
    ∧ delete storage entityName g
        = (storage, .error (if absentOrFalsy storage entityName
            then .entityNotFound else .entityNotArray))
    ∧ search storage entityName (some fi)
        = (storage, .error (if absentOrFalsy storage entityName
            then .entityNotFound else .entityNotArray))
    ∧ search storage entityName none
        = (storage, .error (if absentOrFalsy storage entityName
            then .entityNotFound else .entityNotArray))
    ∧ testSome storage entityName fi
        = (storage, .error (if absentOrFalsy storage entityName
            then .entityNotFound else .entityNotArray))
    ∧ DBError.entityNotFound ≠ DBError.entityNotArray := by
  have hae := arrayEntity_nonarray storage entityName hnot
  exact ⟨hae, insert_obj_error _ _ _ _ _ hae, update_error _ _ _ _ _ hae,
    delete_error _ _ _ _ hae, search_error _ _ _ _ hae,
    search_error _ _ _ _ hae, testSome_error _ _ _ _ hae, by decide⟩

/-- Claim C3, witness: a collection registered to the truthy non-sequence
`"hello"` makes the operations fail with `EntityNotArray`. -/
theorem C3_error_discrimination_witness :
    isArrayValue (lookupA [("c", Entity.prim (Prim.str "hello"))] "c") = false
    ∧ arrayEntity [("c", Entity.prim (Prim.str "hello"))] "c"
        = .error (if absentOrFalsy [("c", Entity.prim (Prim.str "hello"))] "c"
            then .entityNotFound else .entityNotArray)
    ∧ (update [("c", Entity.prim (Prim.str "hello"))] "c" []
        (fun _ => true)).2 = .error .entityNotArray := by
  have h := C3_error_discrimination [("c", Entity.prim (Prim.str "hello"))]
    "c" [] [] (fun _ => true) (fun _ => true) (fun _ => true) (by decide)
  refine ⟨by decide, h.1, ?_⟩
  rw [h.2.2.1]
  rfl

/-- Claim C4, counterexample: insert keys 1 and 2, delete the record with
key 2, insert again — the new insert returns key 2, which an earlier
(since deleted) record of the collection carried: keys are reused. -/
theorem C4_counterexample :
    (insert (create [] "t" (.arr [])) "t" (.obj []) (.str "k")).2
        = .ok (.number (.int 1))
    ∧ (insert (insert (create [] "t" (.arr [])) "t" (.obj [])
        (.str "k")).1 "t" (.obj []) (.str "k")).2 = .ok (.number (.int 2))
    ∧ (testSome (insert (insert (create [] "t" (.arr [])) "t" (.obj [])
          (.str "k")).1 "t" (.obj []) (.str "k")).1 "t"
        (fun r => decide (recGet r "k" = some (.number (.int 2))))).2
        = .ok true
    ∧ (delete (insert (insert (create [] "t" (.arr [])) "t" (.obj [])
          (.str "k")).1 "t" (.obj []) (.str "k")).1 "t"
        (fun r => decide (recGet r "k" = some (.number (.int 2))))).2
        = .ok 1
    ∧ (insert (delete (insert (insert (create [] "t" (.arr [])) "t"
          (.obj []) (.str "k")).1 "t" (.obj []) (.str "k")).1 "t"
          (fun r => decide (recGet r "k" = some (.number (.int 2))))).1
        "t" (.obj []) (.str "k")).2 = .ok (.number (.int 2)) :=
  ⟨rfl, rfl, rfl, rfl, rfl⟩

/-- Claim C4, amended: the auto-increment key is strictly greater than
every integer key currently present in the collection, so it never equals
the key of any record present at insert time; keys of records deleted
before the insert can be reused (see the counterexample). -/
theorem C4_key_fresh_among_current (storage : Storage)
    (entityName k : String) (rows : List Record) (entry : Record)
    (harr : lookupA storage entityName = some (.arr rows))
    (hk : k ≠ "")
    (hnum : ∀ r ∈ rows, (intKey? r k).isSome)
    (hentry : (entry.map Prod.fst).Nodup) :
    ∃ newKey : Int,
      (insert storage entityName (.obj entry) (.str k)).2
          = .ok (.number (.int newKey))
      ∧ ∀ r ∈ rows, ∀ n : Int, intKey? r k = some n → n < newKey := by
  refine ⟨1 + (rows.map (fun r => (intKey? r k).getD 0)).foldl max 0, ?_, ?_⟩
  · rw [insert_autokey_core storage entityName k rows entry harr hk hnum
      hentry]
  · intro r hr n hn
    have hmem : n ∈ rows.map (fun r => (intKey? r k).getD 0) := by
      simpa [hn] using
        List.mem_map_of_mem (fun r => (intKey? r k).getD 0) hr
    have hle := foldl_max_of_mem _ 0 n hmem
    omega

/-- Claim C4, witness on a one-record collection with key 1. -/
theorem C4_key_fresh_among_current_witness :
    (lookupA [("t", Entity.arr [[("k", Prim.number (.int 1))]])] "t"
        = some (.arr [[("k", Prim.number (.int 1))]]))
    ∧ (∀ r ∈ [[("k", Prim.number (.int 1))]], (intKey? r "k").isSome)
    ∧ ∃ newKey : Int,
        (insert [("t", Entity.arr [[("k", Prim.number (.int 1))]])] "t"
          (.obj []) (.str "k")).2 = .ok (.number (.int newKey))
        ∧ ∀ r ∈ [[("k", Prim.number (.int 1))]], ∀ n : Int,
            intKey? r "k" = some n → n < newKey :=
  ⟨by decide, by decide,
   C4_key_fresh_among_current _ "t" "k" _ [] (by decide) (by decide)
     (by decide) (by decide)⟩

/-- Claim C5: `update` returns the number of records satisfying the
predicate, stores (wholesale) the order-preserving map in which every
matched record is the merge of its fields with the patch's fields (patch
winning on overlap) and every unmatched record keeps the same field
values. Records are JS objects, so their field names are unique. -/
theorem C5_update_spec (storage : Storage) (entityName : String)
    (rows : List Record) (data : Record) (matchFunc : Record → Bool)
    (harr : lookupA storage entityName = some (.arr rows))
    (hdata : (data.map Prod.fst).Nodup)
    (hrows : ∀ r ∈ rows, (r.map Prod.fst).Nodup) :
    update storage entityName data matchFunc
      = (setA storage entityName (.arr (rows.map (fun e =>
            if matchFunc e then mergeSpread e data else objClone e))),
         .ok (rows.countP matchFunc))
    ∧ (∀ r ∈ rows, matchFunc r = true →
        ∀ key, recGet (mergeSpread r data) key
          = orO (recGet data key) (recGet r key))
    ∧ (∀ r ∈ rows, matchFunc r = false →
        ∀ key, recGet (objClone r) key = recGet r key) := by
  refine ⟨?_, ?_, ?_⟩
  · unfold update
    rw [arrayEntity_arr storage entityName rows harr]
    show (setA storage entityName
        (.arr (updateRows data matchFunc rows).1),
      Except.ok (updateRows data matchFunc rows).2) = _
    rw [updateRows_eq data matchFunc rows]
  · intro r hr _ key
    exact recGet_mergeSpread r data key (hrows r hr) hdata
  · intro r hr _ key
    rw [objClone_eq_self r (hrows r hr)]

/-- Claim C5, witness: patching `{c: "m"}` over the record with `id = 2`
matches exactly one record. -/
theorem C5_update_spec_witness :
    (lookupA [("t", Entity.arr [[("id", Prim.number (.int 1)),
        ("c", Prim.str "a")], [("id", Prim.number (.int 2))]])] "t"
      = some (.arr [[("id", Prim.number (.int 1)), ("c", Prim.str "a")],
        [("id", Prim.number (.int 2))]]))
    ∧ (([("c", Prim.str "m")].map (Prod.fst (α := String) (β := Prim))).Nodup)
    ∧ (∀ r ∈ [[("id", Prim.number (.int 1)), ("c", Prim.str "a")],
        [("id", Prim.number (.int 2))]],
        ((r.map (Prod.fst (α := String) (β := Prim))).Nodup))
    ∧ (update [("t", Entity.arr [[("id", Prim.number (.int 1)),
          ("c", Prim.str "a")], [("id", Prim.number (.int 2))]])] "t"
        [("c", Prim.str "m")]
        (fun r => decide (recGet r "id" = some (.number (.int 2))))).2
      = .ok 1 := by
  have h := C5_update_spec
    [("t", Entity.arr [[("id", Prim.number (.int 1)), ("c", Prim.str "a")],
      [("id", Prim.number (.int 2))]])] "t"
    [[("id", Prim.number (.int 1)), ("c", Prim.str "a")],
      [("id", Prim.number (.int 2))]]
    [("c", Prim.str "m")]
    (fun r => decide (recGet r "id" = some (.number (.int 2))))
    (by decide) (by decide) (by decide)
  refine ⟨by decide, by decide, by decide, ?_⟩
  rw [h.1]
  rfl

/-- Claim C6: `delete` stores exactly the records failing the predicate,
in their original relative order (the new sequence is a sublist of the
old), returns the original length minus the new length, and no surviving
record satisfies the predicate. -/
theorem C6_delete_spec (storage : Storage) (entityName : String)
    (rows : List Record) (matchFunc : Record → Bool)
    (harr : lookupA storage entityName = some (.arr rows)) :
    delete storage entityName matchFunc
      = (setA storage entityName
          (.arr (rows.filter (fun e => !matchFunc e))),
         .ok (rows.length - (rows.filter (fun e => !matchFunc e)).length))
    ∧ (∀ r ∈ rows.filter (fun e => !matchFunc e), matchFunc r = false)
    ∧ (rows.filter (fun e => !matchFunc e)).Sublist rows := by
  refine ⟨?_, ?_, List.filter_sublist rows⟩
  · unfold delete
    rw [arrayEntity_arr storage entityName rows harr]
  · intro r hr
    have hmem := List.mem_filter.mp hr
    simpa using hmem.2

/-- Claim C6, witness: deleting the record with `id = 2` from a
three-record collection removes exactly one record. -/
theorem C6_delete_spec_witness :
    (lookupA [("t", Entity.arr [[("id", Prim.number (.int 1))],
        [("id", Prim.number (.int 2))], [("id", Prim.number (.int 3))]])] "t"
      = some (.arr [[("id", Prim.number (.int 1))],
        [("id", Prim.number (.int 2))], [("id", Prim.number (.int 3))]]))
    ∧ (delete [("t", Entity.arr [[("id", Prim.number (.int 1))],
        [("id", Prim.number (.int 2))], [("id", Prim.number (.int 3))]])] "t"
        (fun r => decide (recGet r "id" = some (.number (.int 2))))).2
      = .ok 1 := by
  have h := C6_delete_spec
    [("t", Entity.arr [[("id", Prim.number (.int 1))],
      [("id", Prim.number (.int 2))], [("id", Prim.number (.int 3))]])] "t"
    [[("id", Prim.number (.int 1))], [("id", Prim.number (.int 2))],
      [("id", Prim.number (.int 3))]]
    (fun r => decide (recGet r "id" = some (.number (.int 2))))
    (by decide)
  refine ⟨by decide, ?_⟩
  rw [h.1]
  rfl

/-- Claim C7: at the reference level, `create` with an array stores a
fresh copy — a different array object than the caller's, with equal
contents — so mutating the caller's array afterwards leaves the stored
content unchanged; `search` with no predicate returns another fresh array
with the stored contents; and at the value level a `create` followed by a
`search` returns the original contents, while `search` with a predicate
returns exactly the records satisfying it, in order. -/
theorem C7_create_search_copy (h : Heap) (callerAddr : Nat)
    (entityName : String) (ha : callerAddr < h.length) :
    (createRefModel h callerAddr).2 ≠ callerAddr
    ∧ readH (createRefModel h callerAddr).1 (createRefModel h callerAddr).2
        = readH h callerAddr
    ∧ (∀ rows2, readH (writeH (createRefModel h callerAddr).1 callerAddr
          rows2) (createRefModel h callerAddr).2 = readH h callerAddr)
    ∧ (searchRefModel (createRefModel h callerAddr).1
          (createRefModel h callerAddr).2).2 ≠ callerAddr
    ∧ readH (searchRefModel (createRefModel h callerAddr).1
          (createRefModel h callerAddr).2).1
        (searchRefModel (createRefModel h callerAddr).1
          (createRefModel h callerAddr).2).2 = readH h callerAddr
    ∧ (search (create [] entityName (.arr (readH h callerAddr))) entityName
        none).2 = .ok (readH h callerAddr)
    ∧ (∀ f : Record → Bool,
        (search (create [] entityName (.arr (readH h callerAddr))) entityName
          (some f)).2 = .ok ((readH h callerAddr).filter f)
        ∧ ((readH h callerAddr).filter f).Sublist (readH h callerAddr)
        ∧ ∀ r ∈ (readH h callerAddr).filter f, f r = true) := by
  have hx := readH_alloc h (readH h callerAddr)
  have hne : callerAddr ≠ h.length := Nat.ne_of_lt ha
  refine ⟨?_, ?_, ?_, ?_, ?_, ?_, ?_⟩
  · simp only [createRefModel, allocH]
    omega
  · simpa [createRefModel, allocH] using hx
  · intro rows2
    simp only [createRefModel, allocH, writeH]
    rw [readH_set_ne _ _ _ _ hne]
    exact hx
  · simp only [searchRefModel, createRefModel, allocH]
    simp only [List.length_append]
    omega
  · simp only [searchRefModel, createRefModel, allocH]
    rw [readH_alloc]
    exact hx
  · simp [search, create, setA, arrayEntity, lookupA, entityTruthy]
  · intro f
    refine ⟨?_, List.filter_sublist _, ?_⟩
    · simp [search, create, setA, arrayEntity, lookupA, entityTruthy]
    · intro r hr
      exact (List.mem_filter.mp hr).2

/-- Claim C7, witness on a one-array heap. -/
theorem C7_create_search_copy_witness :
    0 < ([[[("a", Prim.null)]]] : Heap).length
    ∧ (createRefModel [[[("a", Prim.null)]]] 0).2 ≠ 0
    ∧ readH (createRefModel [[[("a", Prim.null)]]] 0).1
        (createRefModel [[[("a", Prim.null)]]] 0).2
      = readH [[[("a", Prim.null)]]] 0 := by
  have h := C7_create_search_copy [[[("a", Prim.null)]]] 0 "t" (by decide)
  exact ⟨by decide, h.1, h.2.1⟩

/-- Claim C10: whenever insert/update/delete fail, the returned store
state is exactly the state before the call — the entry check and the
shared existence/type check both run before any mutation — and search and
testSome never change the store at all. -/
theorem C10_error_atomicity (storage : Storage) (entityName : String)
    (entry : JSArg) (pk : Prim) (patch : Record) (f g fi : Record → Bool)
    (filt : Option (Record → Bool)) :
    (∀ e, (insert storage entityName entry pk).2 = .error e →
        (insert storage entityName entry pk).1 = storage)
    ∧ (∀ e, (update storage entityName patch f).2 = .error e →
        (update storage entityName patch f).1 = storage)
    ∧ (∀ e, (delete storage entityName g).2 = .error e →
        (delete storage entityName g).1 = storage)
    ∧ (search storage entityName filt).1 = storage
    ∧ (testSome storage entityName fi).1 = storage := by
  refine ⟨?_, ?_, ?_, ?_, ?_⟩
  · intro e he
    cases entry with
    | obj r =>
      cases hae : arrayEntity storage entityName with
      | error e' => rw [insert_obj_error _ _ _ _ _ hae]
      | ok rows =>
        exfalso
        unfold insert at he
        rw [hae] at he
        simp at he
    | arrv rows => rfl
    | prim v => cases v <;> rfl
  · intro e he
    cases hae : arrayEntity storage entityName with
    | error e' => rw [update_error _ _ _ _ _ hae]
    | ok rows =>
      exfalso
      unfold update at he
      rw [hae] at he
      simp at he
  · intro e he
    cases hae : arrayEntity storage entityName with
    | error e' => rw [delete_error _ _ _ _ hae]
    | ok rows =>
      exfalso
      unfold delete at he
      rw [hae] at he
      simp at he
  · cases hae : arrayEntity storage entityName with
    | error e' => rw [search_error _ _ _ _ hae]
    | ok rows =>
      unfold search
      rw [hae]
      cases filt <;> rfl
  · cases hae : arrayEntity storage entityName with
    | error e' => rw [testSome_error _ _ _ _ hae]
    | ok rows =>
      unfold testSome
      rw [hae]

/-- Claim C10, witness: on the empty store all five operations fail (with
`EntityNotFound`) and leave the store empty. -/
theorem C10_error_atomicity_witness :
    (insert [] "t" (.obj []) .undefined).1 = []
    ∧ (update [] "t" [] (fun _ => true)).1 = []
    ∧ (delete [] "t" (fun _ => true)).1 = []
    ∧ (search [] "t" none).1 = []
    ∧ (testSome [] "t" (fun _ => true)).1 = [] := by
  have h := C10_error_atomicity [] "t" (.obj []) .undefined []
    (fun _ => true) (fun _ => true) (fun _ => true) none
  exact ⟨h.1 .entityNotFound rfl, h.2.1 .entityNotFound rfl,
    h.2.2.1 .entityNotFound rfl, h.2.2.2.1, h.2.2.2.2⟩

end Fictive

